import Mathlib

/-!
Verification of the Danish rent-roll parser (backend/parser.py).

The parser is embedded shallowly: each Python function becomes a Lean
definition over explicit data (cells are `Option String`, numbers are `ℚ`,
fallible operations return `Option`/`Except`).  The external collaborators
(spreadsheet reader, PDF table extractor, OCR engine) deliver their content
as plain data arguments; their I/O failure modes are outside this model.
-/

namespace RentRoll

/-! ### Python string primitives -/

/-- Model of Python `str.lower` restricted to the character repertoire the
parser meets: ASCII letters plus the Danish uppercase letters Å, Æ, Ø. -/
def lowerChar (c : Char) : Char :=
  if 'A' ≤ c ∧ c ≤ 'Z' then Char.ofNat (c.toNat + 32)
  else if c = 'Å' then 'å'
  else if c = 'Æ' then 'æ'
  else if c = 'Ø' then 'ø'
  else c

def pyLower (s : String) : String :=
  String.mk (s.data.map lowerChar)

/-- Whitespace for `str.strip` and the `\s` regex class. -/
def pyIsSpace (c : Char) : Bool :=
  c = ' ' ∨ c = '\t' ∨ c = '\n' ∨ c = '\r' ∨ c = '\x0b' ∨ c = '\x0c'

/-- Model of Python `str.strip()` (no argument: strip whitespace). -/
def pyStrip (s : String) : String :=
  String.mk (((s.data.dropWhile pyIsSpace).reverse.dropWhile pyIsSpace).reverse)

/-- `beginsWith needle hay`: `needle` is an initial run of `hay`. -/
def beginsWith : List Char → List Char → Bool
  | [], _ => true
  | _ :: _, [] => false
  | n :: ns, h :: hs => n = h && beginsWith ns hs

/-- `hasSub hay needle`: `needle` occurs contiguously inside `hay`. -/
def hasSub (hay needle : List Char) : Bool :=
  beginsWith needle hay ||
    match hay with
    | [] => false
    | _ :: t => hasSub t needle

/-- Model of Python `needle in hay` on strings. -/
def pyIn (needle hay : String) : Bool :=
  hasSub hay.data needle.data

/-- Model of Python `value.split(sep)` for a one-character separator:
keeps empty parts, `"".split(sep) = [""]`. -/
def splitChar (sep : Char) : List Char → List (List Char)
  | [] => [[]]
  | c :: t =>
    if c = sep then [] :: splitChar sep t
    else
      match splitChar sep t with
      | [] => [[c]]
      | h :: r => (c :: h) :: r

/-- `value.split('.')`. -/
def splitDot (l : List Char) : List (List Char) :=
  splitChar '.' l

/-! ### Numeric normalizer (`convert_danish_number`) -/

/-- The regex `re.sub(r'[kr\s€$]', '', value, flags=IGNORECASE)`: drop every
`k`/`K`/`r`/`R`, whitespace, `€` and `$` character. -/
def stripCurrency (l : List Char) : List Char :=
  l.filter (fun c => ¬ (lowerChar c = 'k' ∨ lowerChar c = 'r' ∨ pyIsSpace c ∨ c = '€' ∨ c = '$'))

/-- The check `re.search(r'\d', value)`. -/
def hasDigit (l : List Char) : Bool :=
  l.any Char.isDigit

def digitsVal (l : List Char) : ℕ :=
  l.foldl (fun a c => 10 * a + (c.toNat - 48)) 0

def allDigits (l : List Char) : Bool :=
  l.all Char.isDigit

/-- Split a list at the first occurrence of a character satisfying `p`;
returns the part before and, when found, the part after the separator. -/
def splitFirst (p : Char → Bool) : List Char → List Char × Option (List Char)
  | [] => ([], none)
  | c :: t =>
    if p c then ([], some t)
    else
      let r := splitFirst p t
      (c :: r.1, r.2)

/-- The discrete part of parsing a float literal: sign, mantissa digits
(integer and fractional digits concatenated), number of fractional digits,
exponent sign and exponent digits.  `none` when the string is malformed. -/
def pyFloatParts (l : List Char) : Option (Bool × ℕ × ℕ × Bool × ℕ) :=
  let l := ((l.dropWhile pyIsSpace).reverse.dropWhile pyIsSpace).reverse
  let signAndRest : Bool × List Char :=
    match l with
    | '+' :: t => (true, t)
    | '-' :: t => (false, t)
    | _ => (true, l)
  let sign := signAndRest.1
  let body := signAndRest.2
  let mantExp := splitFirst (fun c => c = 'e' ∨ c = 'E') body
  let mant := mantExp.1
  let ip := mant.takeWhile Char.isDigit
  let rest := mant.drop ip.length
  let fracOk : Bool × List Char :=
    match rest with
    | [] => (true, [])
    | '.' :: fp => (allDigits fp, fp)
    | _ => (false, [])
  if ¬ fracOk.1 then none
  else
    let fp := fracOk.2
    if ip.isEmpty ∧ fp.isEmpty then none
    else
      match mantExp.2 with
      | none => some (sign, digitsVal (ip ++ fp), fp.length, true, 0)
      | some ec =>
        let eSignAndRest : Bool × List Char :=
          match ec with
          | '+' :: t => (true, t)
          | '-' :: t => (false, t)
          | _ => (true, ec)
        let ed := eSignAndRest.2
        if ed.isEmpty ∨ ¬ allDigits ed then none
        else some (sign, digitsVal (ip ++ fp), fp.length, eSignAndRest.1, digitsVal ed)

/-- Assemble the rational value of a parsed float literal. -/
def ratOfParts (p : Bool × ℕ × ℕ × Bool × ℕ) : ℚ :=
  let s : ℚ := if p.1 then 1 else -1
  let mant : ℚ := (p.2.1 : ℚ) / (10 : ℚ) ^ p.2.2.1
  let ex : ℚ := if p.2.2.2.1 then (10 : ℚ) ^ p.2.2.2.2 else ((10 : ℚ) ^ p.2.2.2.2)⁻¹
  s * mant * ex

/-- Model of Python `float(str)` on the strings the parser can produce:
optional surrounding whitespace, optional sign, a decimal mantissa with at
least one digit, optional `e`/`E` exponent; the decimal value is represented
exactly in `ℚ` (double rounding is outside the model).  `inf`/`nan`
spellings are unreachable here: the caller requires a digit in the string. -/
def pyFloat (l : List Char) : Option ℚ :=
  (pyFloatParts l).map ratOfParts

/-- The thousands/decimal separator stage of `convert_danish_number`:
operates on the currency-stripped character list. -/
def normalizeSeparators (v : List Char) : List Char :=
  if ',' ∈ v then
    -- comma present: periods are thousands separators, comma the decimal point
    (v.filter (fun c => c ≠ '.')).map (fun c => if c = ',' then '.' else c)
  else
    let periodCount := v.count '.'
    if periodCount = 1 then
      let parts := splitDot v
      let p0 := parts.headD []
      let p1 := (parts.drop 1).headD []
      if p1.length = 3 ∧ p0.length ≤ 3 then v.filter (fun c => c ≠ '.')
      else v
    else if 1 < periodCount then v.filter (fun c => c ≠ '.')
    else v

/-- A Python value reaching `convert_danish_number`: `None`, a number
(`int`/`float`, collapsed into `ℚ`), or a string. -/
inductive PyVal where
  | none
  | num (q : ℚ)
  | str (s : String)
deriving DecidableEq

/-- Shallow embedding of `convert_danish_number` (parser.py 211-261). -/
def convert_danish_number : PyVal → Option ℚ
  | .none => Option.none
  | .num q => some q
  | .str s =>
    let v := pyStrip s
    if v = "" then Option.none
    else
      let v := stripCurrency v.data
      if ¬ hasDigit v then Option.none
      else pyFloat (normalizeSeparators v)

/-- `convert_danish_number` applied to a string cell. -/
def convertStr (s : String) : Option ℚ :=
  convert_danish_number (PyVal.str s)

/-- Feed an `Optional[float]` result back into the converter, as Python
would pass the value (`None` stays `None`, a float stays a float). -/
def pyOfOpt : Option ℚ → PyVal
  | Option.none => PyVal.none
  | some q => PyVal.num q

/-! ### Configuration tables (parser.py 48-161) -/

/-- Keywords for header detection (lowercase for matching). -/
def HEADER_KEYWORDS : List String :=
  [ -- Danish
    "lejemål", "lejnr", "areal", "m2", "kvm", "leje", "årlig",
    "nr", "bel", "etage", "bem", "bemærkning", "reg", "regulering",
    "start", "indflytning", "type", "anvendelse",
    -- English
    "unit_id", "size_sqm", "sqm", "area", "rent", "floor", "address",
    "zipcode", "postal", "door", "rooms", "lease", "tenant"]

/-- Column mapping to standard field names, in the dict's declaration
order (parser.py 60-150). -/
def COLUMN_MAPPING : List (String × String) :=
  [("lejnr", "unit_id"), ("lejemål", "unit_id"), ("lejenr", "unit_id"),
   ("lejemålsnr", "unit_id"), ("nr", "unit_id"), ("unit_id", "unit_id"),
   ("areal", "sqm"), ("m2", "sqm"), ("kvm", "sqm"), ("m²", "sqm"),
   ("kvadratmeter", "sqm"), ("size_sqm", "sqm"), ("sqm", "sqm"),
   ("area", "sqm"), ("size", "sqm"),
   ("leje", "annual_rent"), ("årlig", "annual_rent"), ("årligleje", "annual_rent"),
   ("årlig leje", "annual_rent"), ("husleje", "annual_rent"),
   ("rent_current_gri", "annual_rent"), ("rent_current", "annual_rent"),
   ("annual_rent", "annual_rent"), ("rent", "annual_rent"), ("gri", "annual_rent"),
   ("bel", "floor"), ("etage", "floor"), ("beliggenhed", "floor"),
   ("unit_floor", "floor"), ("floor", "floor"),
   ("type", "unit_type"), ("anvendelse", "unit_type"),
   ("lejemålstype", "unit_type"), ("unit_type", "unit_type"),
   ("start", "lease_start"), ("indflytning", "lease_start"),
   ("startdato", "lease_start"), ("indflytningsdato", "lease_start"),
   ("lease_start", "lease_start"),
   ("lease_end", "lease_end"), ("slutdato", "lease_end"), ("fraflytning", "lease_end"),
   ("bem", "notes"), ("bemærkning", "notes"), ("bemærkninger", "notes"),
   ("note", "notes"), ("noter", "notes"), ("notes", "notes"),
   ("reg", "rent_adjustment"), ("regulering", "rent_adjustment"),
   ("lejeregulering", "rent_adjustment"),
   ("unit_address", "address"), ("address", "address"), ("adresse", "address"),
   ("unit_zipcode", "postal_code"), ("zipcode", "postal_code"),
   ("postal_code", "postal_code"), ("postnr", "postal_code"),
   ("postnummer", "postal_code"),
   ("unit_door", "door"), ("door", "door"), ("dør", "door"),
   ("rooms_amount", "rooms"), ("rooms", "rooms"), ("værelser", "rooms"),
   ("tenant_name1", "tenant_name"), ("tenant_name", "tenant_name"),
   ("lejer", "tenant_name"), ("lejernavn", "tenant_name"),
   ("units_status", "unit_status"), ("unit_status", "unit_status"),
   ("status", "unit_status"), ("lejestatus", "unit_status"),
   ("udlejningsstatus", "unit_status")]

/-- End row indicators. -/
def END_ROW_KEYWORDS : List String :=
  ["total", "sum", "i alt", "ialt", "samlet", "subtotal"]

def UNIT_TYPE_BOLIG : List String :=
  ["apartment", "residential", "bolig", "lejlighed", "værelse", "room"]

def UNIT_TYPE_ERHVERV : List String :=
  ["commercial", "retail", "office", "erhverv", "kontor", "butik", "lager", "warehouse"]

def UNIT_TYPE_PARKERING : List String :=
  ["parking", "parkering", "p-plads", "garage", "carport"]

/-- Vacancy status keywords. -/
def VACANCY_KEYWORDS : List String :=
  ["vacant", "ledig", "tom", "fraflyttet", "empty", "available", "til leje"]

/-! ### Leaf helpers -/

/-- `categorize_unit_type` (parser.py 164-183). -/
def categorize_unit_type (unit_type_value : String) : String :=
  if unit_type_value = "" then "andet"
  else
    let val_lower := pyStrip (pyLower unit_type_value)
    if UNIT_TYPE_BOLIG.any (fun k => pyIn k val_lower) then "bolig"
    else if UNIT_TYPE_ERHVERV.any (fun k => pyIn k val_lower) then "erhverv"
    else if UNIT_TYPE_PARKERING.any (fun k => pyIn k val_lower) then "parkering"
    else "andet"

/-- `is_unit_vacant` (parser.py 186-197). -/
def is_unit_vacant (status_value : String) : Bool :=
  if status_value = "" then false
  else
    let val_lower := pyStrip (pyLower status_value)
    VACANCY_KEYWORDS.any (fun k => pyIn k val_lower)

/-- The parser's error kinds (`ParseError.ERROR_TYPES`); the attached
human-readable messages are not modeled. -/
inductive ParseError where
  | file_not_found
  | invalid_file_type
  | password_protected
  | no_header_found
  | no_data_found
  | ocr_failed
  | corrupted_file
deriving DecidableEq

/-- A table cell as delivered by the row-source collaborators: `None` or a
string (scalar cells are stringified at the collaborator boundary). -/
abbrev Cell := Option String

/-- `Path(file_path).suffix`: the extension of the final path component,
from its last dot, empty when the dot is first or last in the name. -/
def pathSuffix (p : String) : String :=
  let name := ((p.data.reverse.takeWhile (fun c => c ≠ '/')).reverse)
  let beforeLastDot := (name.reverse.dropWhile (fun c => c ≠ '.')).reverse
  if beforeLastDot.length = 0 ∨ beforeLastDot.length = 1 ∨ beforeLastDot.length = name.length
  then ""
  else String.mk (name.drop (beforeLastDot.length - 1))

/-- `detect_file_type` (parser.py 200-208). -/
def detect_file_type (file_path : String) : Except ParseError String :=
  let ext := pyLower (pathSuffix file_path)
  if ext = ".xlsx" ∨ ext = ".xls" then Except.ok ("excel")
  else if ext = ".pdf" then Except.ok ("pdf")
  else Except.error ParseError.invalid_file_type

/-! ### Header locator (`find_header_row`, parser.py 264-301) -/

/-- Lower-case and strip every cell of a row, `None` becoming `""`
(parser.py 278). -/
def prepCells (row : List Cell) : List String :=
  row.map (fun c =>
    match c with
    | some s => pyStrip (pyLower s)
    | Option.none => "")

/-- Score of one candidate header row: one point per cell containing any
header keyword (each cell counts once), plus one bonus point when at least
three cells are non-empty. -/
def rowScore (row : List Cell) : ℕ :=
  let cells := prepCells row
  let score := (cells.map (fun cell =>
    if HEADER_KEYWORDS.any (fun k => pyIn k cell) then 1 else 0)).sum
  let nonEmpty := (cells.filter (fun c => c ≠ "")).length
  if 3 ≤ nonEmpty then score + 1 else score

/-- One step of the best-row scan: empty rows are skipped; a row replaces
the best so far only on a strictly higher score. -/
def headerStep (acc : ℕ × Option (ℕ × List Cell)) (p : ℕ × List Cell) :
    ℕ × Option (ℕ × List Cell) :=
  if p.2.isEmpty then acc
  else if acc.1 < rowScore p.2 then (rowScore p.2, some p) else acc

/-- `find_header_row`: scan the first 15 rows, keep the strictly best
score, fail when the best score is below 2. -/
def find_header_row (rows : List (List Cell)) : Except ParseError (ℕ × List Cell) :=
  let best := ((rows.take 15).enum).foldl headerStep (0, Option.none)
  if best.1 < 2 then Except.error ParseError.no_header_found
  else
    match best.2 with
    | some p => Except.ok p
    | Option.none => Except.error ParseError.no_header_found

/-! ### Column mapper (`map_columns`, parser.py 304-323) -/

/-- First value in an association list for a key (Python `dict` lookup for
dicts with unique keys). -/
def dictGet {β : Type} : List (String × β) → String → Option β
  | [], _ => Option.none
  | p :: t, k => if p.1 = k then some p.2 else dictGet t k

/-- Insert with Python `dict` semantics: overwrite an existing key in
place, else append. -/
def dictInsert {β : Type} (d : List (String × β)) (k : String) (v : β) :
    List (String × β) :=
  if d.any (fun p => p.1 = k) then d.map (fun p => if p.1 = k then (k, v) else p)
  else d ++ [(k, v)]

/-- Map one header string to a canonical tag: exact lower-cased lookup
first, else the first `COLUMN_MAPPING` entry (declaration order) whose
synonym contains the header or is contained in it. -/
def mapHeader (header_str : String) : Option String :=
  let header_lower := pyLower header_str
  match dictGet COLUMN_MAPPING header_lower with
  | some std => some std
  | Option.none =>
    (COLUMN_MAPPING.find? (fun p => pyIn p.1 header_lower || pyIn header_lower p.1)).map
      (fun p => p.2)

/-- `map_columns`: build the header-string → canonical-tag dict, skipping
`None` headers and unmapped headers. -/
def map_columns (headers : List Cell) : List (String × String) :=
  headers.foldl (fun mapping h =>
    match h with
    | Option.none => mapping
    | some s =>
      let header_str := pyStrip s
      match mapHeader header_str with
      | some std => dictInsert mapping header_str std
      | Option.none => mapping) []

/-! ### Table segmenter helpers -/

/-- `is_end_row` (parser.py 326-344): a sentinel row is empty, entirely
blank, or carries a terminal keyword in one of its first three cells. -/
def is_end_row (row : List Cell) : Bool :=
  if row.isEmpty then true
  else
    let non_empty := row.filter (fun c =>
      match c with
      | some s => pyStrip s ≠ ""
      | Option.none => false)
    if non_empty.isEmpty then true
    else
      (row.take 3).any (fun c =>
        match c with
        | some s =>
          let cell_lower := pyStrip (pyLower s)
          END_ROW_KEYWORDS.any (fun k => pyIn k cell_lower)
        | Option.none => false)

/-- `get_rent_type_from_sheet` (parser.py 347-354). -/
def get_rent_type_from_sheet (sheet_name : String) : Option String :=
  let name_lower := pyLower sheet_name
  if pyIn ("parkering") name_lower || pyIn ("p-plads") name_lower then some ("parkering")
  else if pyIn ("erhverv") name_lower || pyIn ("commercial") name_lower then some ("erhverv")
  else Option.none

/-! ### Aggregator (`calculate_summary_stats`, parser.py 357-493) -/

/-- One extracted data row (the dicts appended to `all_rows`). -/
structure Row where
  raw : List String
  source : String
  row_num : ℕ
  rent_type : Option String
deriving DecidableEq

/-- Per-category accumulator of the unit-type breakdown. -/
structure CatAcc where
  count : ℕ
  sqm : ℚ
  rent : ℚ
  vacant : ℕ
deriving DecidableEq

def CatAcc.init : CatAcc := ⟨0, 0, 0, 0⟩

structure Breakdown where
  bolig : CatAcc
  erhverv : CatAcc
  parkering : CatAcc
  andet : CatAcc
deriving DecidableEq

def Breakdown.init : Breakdown := ⟨CatAcc.init, CatAcc.init, CatAcc.init, CatAcc.init⟩

/-- Update the accumulator of the named category (`categorize_unit_type`
only ever produces one of the four names; anything else lands on
`andet`, matching the dict keys of parser.py 384-389). -/
def Breakdown.update (b : Breakdown) (cat : String) (f : CatAcc → CatAcc) : Breakdown :=
  if cat = "bolig" then { b with bolig := f b.bolig }
  else if cat = "erhverv" then { b with erhverv := f b.erhverv }
  else if cat = "parkering" then { b with parkering := f b.parkering }
  else { b with andet := f b.andet }

/-- An entry of `rows_suspicious`. -/
structure Susp where
  row_num : ℕ
  issue : String
  value : ℚ
  unit : String
deriving DecidableEq

/-- Mutable state of the accumulation loop of `calculate_summary_stats`. -/
structure StatAcc where
  total_sqm : ℚ
  total_rent : ℚ
  total_vacant : ℕ
  units_with_sqm : ℕ
  units_with_rent : ℕ
  rent_per_sqm_sum : ℚ
  rent_per_sqm_count : ℕ
  breakdown : Breakdown
  rows_missing_sqm : List ℕ
  rows_missing_rent : List ℕ
  rows_suspicious : List Susp

def StatAcc.init : StatAcc :=
  ⟨0, 0, 0, 0, 0, 0, 0, Breakdown.init, [], [], []⟩

/-- Fetch a row value through an optional column index, `None` when the
column is unmapped or past the row's end (the guards of lines 401, 413). -/
def fetchIdx (idx : Option ℕ) (raw : List String) : Option ℚ :=
  match idx with
  | some i => if i < raw.length then convertStr (raw.getD i "") else Option.none
  | Option.none => Option.none

/-- The "Extract sqm value" section of the row loop (parser.py 399-409). -/
def statStepSqm (sqmIdx : Option ℕ) (raw : List String) (rn : ℕ) (acc : StatAcc) :
    StatAcc :=
  match sqmIdx with
  | some i =>
    if i < raw.length then
      match convertStr (raw.getD i "") with
      | some v =>
        if 0 < v then
          { acc with total_sqm := acc.total_sqm + v,
                     units_with_sqm := acc.units_with_sqm + 1 }
        else { acc with rows_missing_sqm := acc.rows_missing_sqm ++ [rn] }
      | Option.none => { acc with rows_missing_sqm := acc.rows_missing_sqm ++ [rn] }
    else { acc with rows_missing_sqm := acc.rows_missing_sqm ++ [rn] }
  | Option.none => { acc with rows_missing_sqm := acc.rows_missing_sqm ++ [rn] }

/-- The "Extract rent value" section (parser.py 411-431), including the
zero-rent suspicion check against the row's sqm value. -/
def statStepRent (rentIdx : Option ℕ) (sqm_value : Option ℚ) (raw : List String)
    (rn : ℕ) (acc : StatAcc) : StatAcc :=
  match rentIdx with
  | some i =>
    if i < raw.length then
      match convertStr (raw.getD i "") with
      | some v =>
        if 0 < v then
          { acc with total_rent := acc.total_rent + v,
                     units_with_rent := acc.units_with_rent + 1 }
        else if v = 0 then
          let acc := { acc with rows_missing_rent := acc.rows_missing_rent ++ [rn] }
          -- Check for zero rent with valid sqm
          match sqm_value with
          | some sv =>
            if 0 < sv then
              { acc with rows_suspicious :=
                  acc.rows_suspicious ++ [Susp.mk rn ("Zero rent") 0 ("kr")] }
            else acc
          | Option.none => acc
        else { acc with rows_missing_rent := acc.rows_missing_rent ++ [rn] }
      | Option.none => { acc with rows_missing_rent := acc.rows_missing_rent ++ [rn] }
    else { acc with rows_missing_rent := acc.rows_missing_rent ++ [rn] }
  | Option.none => { acc with rows_missing_rent := acc.rows_missing_rent ++ [rn] }

/-- The category of the row (parser.py 433-438). -/
def rowCategory (typeIdx : Option ℕ) (raw : List String) : String :=
  match typeIdx with
  | some i => if i < raw.length then categorize_unit_type (raw.getD i "") else "andet"
  | Option.none => "andet"

/-- Per-category accumulation (parser.py 440-444). -/
def statStepBreak (category : String) (sqm_value rent_value : Option ℚ) (acc : StatAcc) :
    StatAcc :=
  let acc := { acc with breakdown :=
    acc.breakdown.update category (fun c => { c with count := c.count + 1 }) }
  let acc :=
    match sqm_value with
    | some v =>
      if 0 < v then
        { acc with breakdown :=
            acc.breakdown.update category (fun c => { c with sqm := c.sqm + v }) }
      else acc
    | Option.none => acc
  match rent_value with
  | some v =>
    if 0 < v then
      { acc with breakdown :=
          acc.breakdown.update category (fun c => { c with rent := c.rent + v }) }
    else acc
  | Option.none => acc

/-- The vacancy check (parser.py 446-451). -/
def statStepVacancy (statusIdx : Option ℕ) (category : String) (raw : List String)
    (acc : StatAcc) : StatAcc :=
  match statusIdx with
  | some i =>
    if i < raw.length then
      if is_unit_vacant (raw.getD i "") then
        { acc with
          breakdown := acc.breakdown.update category
            (fun c => { c with vacant := c.vacant + 1 }),
          total_vacant := acc.total_vacant + 1 }
      else acc
    else acc
  | Option.none => acc

/-- The per-row rent-per-sqm accumulation (parser.py 453-457). -/
def statStepRps (sqm_value rent_value : Option ℚ) (acc : StatAcc) : StatAcc :=
  match sqm_value, rent_value with
  | some sv, some rv =>
    if 0 < sv ∧ 0 < rv then
      { acc with rent_per_sqm_sum := acc.rent_per_sqm_sum + rv / sv,
                 rent_per_sqm_count := acc.rent_per_sqm_count + 1 }
    else acc
  | _, _ => acc

/-- The body of the `for row in rows` loop (parser.py 395-457), as the
composition of its sections in source order. -/
def statStep (sqmIdx rentIdx typeIdx statusIdx : Option ℕ) (acc : StatAcc) (row : Row) :
    StatAcc :=
  let raw := row.raw
  let rn := row.row_num
  let sqm_value := fetchIdx sqmIdx raw
  let rent_value := fetchIdx rentIdx raw
  let category := rowCategory typeIdx raw
  let acc := statStepSqm sqmIdx raw rn acc
  let acc := statStepRent rentIdx sqm_value raw rn acc
  let acc := statStepBreak category sqm_value rent_value acc
  let acc := statStepVacancy statusIdx category raw acc
  statStepRps sqm_value rent_value acc

/-- Model of Python `round(x, 2)` on the exact rational model: round to the
nearest multiple of 1/100.  (Exact on the parser's monetary totals.) -/
def round2 (q : ℚ) : ℚ :=
  ((round (q * 100) : ℤ) : ℚ) / 100

structure Summary where
  total_units : ℕ
  total_sqm : ℚ
  total_annual_rent : ℚ
  avg_rent_per_sqm : ℚ
  units_with_rent : ℕ
  units_with_sqm : ℕ
  total_vacant : ℕ
  unit_type_breakdown : Breakdown
deriving DecidableEq

structure DataQuality where
  rows_missing_sqm : List ℕ
  rows_missing_rent : List ℕ
  rows_suspicious : List Susp
  unmapped_columns : List String
deriving DecidableEq

/-- `standard_to_idx` (parser.py 363-367): scan columns in order, entering
the column index under its canonical tag, later columns overwriting. -/
def standard_to_idx (columns : List String) (column_mapping : List (String × String)) :
    List (String × ℕ) :=
  columns.enum.foldl (fun d p =>
    match dictGet column_mapping p.2 with
    | some std => dictInsert d std p.1
    | Option.none => d) []

/-- Shallow embedding of `calculate_summary_stats` (parser.py 357-493). -/
def calculate_summary_stats (rows : List Row) (columns : List String)
    (column_mapping : List (String × String)) : Summary × DataQuality :=
  let sti := standard_to_idx columns column_mapping
  let sqm_idx := dictGet sti ("sqm")
  let rent_idx := dictGet sti ("annual_rent")
  let unit_type_idx := dictGet sti ("unit_type")
  let unit_status_idx := dictGet sti ("unit_status")
  let acc := rows.foldl (statStep sqm_idx rent_idx unit_type_idx unit_status_idx) StatAcc.init
  let avg_rent_per_sqm : ℚ :=
    if 0 < acc.rent_per_sqm_count then acc.rent_per_sqm_sum / (acc.rent_per_sqm_count : ℚ)
    else 0
  let unmapped_columns := columns.filter (fun col =>
    col ≠ "" ∧ pyStrip col ≠ "" ∧ (dictGet column_mapping col).isNone)
  let roundCat : CatAcc → CatAcc := fun c =>
    { c with sqm := round2 c.sqm, rent := round2 c.rent }
  let roundedBreakdown : Breakdown :=
    { bolig := roundCat acc.breakdown.bolig,
      erhverv := roundCat acc.breakdown.erhverv,
      parkering := roundCat acc.breakdown.parkering,
      andet := roundCat acc.breakdown.andet }
  let summary : Summary :=
    { total_units := rows.length,
      total_sqm := round2 acc.total_sqm,
      total_annual_rent := round2 acc.total_rent,
      avg_rent_per_sqm := round2 avg_rent_per_sqm,
      units_with_rent := acc.units_with_rent,
      units_with_sqm := acc.units_with_sqm,
      total_vacant := acc.total_vacant,
      unit_type_breakdown := roundedBreakdown }
  let data_quality : DataQuality :=
    { rows_missing_sqm := acc.rows_missing_sqm,
      rows_missing_rent := acc.rows_missing_rent,
      rows_suspicious := acc.rows_suspicious,
      unmapped_columns := unmapped_columns }
  (summary, data_quality)

/-! ### Spreadsheet pipeline (`parse_excel`, parser.py 496-619)

The spreadsheet reader collaborator is modeled as its delivered content: an
ordered list of (sheet name, rows) pairs.  Reader exceptions, password
protection and the result's filename/file-type metadata are outside the
pure model; `confidence` stays `"high"` because the only downgrade happens
in the per-sheet exception handler for reader failures. -/

/-- `[str(c) if c is not None else "" for c in row]`. -/
def stringifyRow (row : List Cell) : List String :=
  row.map (fun c => c.getD "")

/-- The inner `for row_offset, row in enumerate(data_rows)` loop of
`parse_excel` (lines 571-589): stops at the first sentinel, skips rows with
fewer than two non-empty cells, and numbers rows `header_idx + offset + 2`. -/
def extractSheetRows (source : String) (rent_type : Option String) (header_idx : ℕ) :
    List (List Cell) → ℕ → List Row
  | [], _ => []
  | row :: rest, off =>
    if is_end_row row then []
    else
      let raw_data := stringifyRow row
      let non_empty := (raw_data.filter (fun s => pyStrip s ≠ "")).length
      if non_empty < 2 then extractSheetRows source rent_type header_idx rest (off + 1)
      else
        Row.mk raw_data source (header_idx + off + 2) rent_type ::
          extractSheetRows source rent_type header_idx rest (off + 1)

/-- Loop state of `parse_excel` across sheets. -/
structure ExcelAcc where
  all_rows : List Row
  headerInfo : Option (ℕ × List String × List (String × String))
  sheets_used : List String
  warnings : List String

/-- One sheet iteration of `parse_excel` (lines 534-598). -/
def excelSheetStep (acc : ExcelAcc) (sheet : String × List (List Cell)) : ExcelAcc :=
  let name := sheet.1
  let rows := sheet.2
  if rows.length < 3 then
    { acc with warnings :=
        acc.warnings ++ [("Sheet ") ++ name ++ (" skipped - insufficient rows")] }
  else
    let headerRes : Option (ℕ × Option (ℕ × List String × List (String × String))) :=
      match acc.headerInfo with
      | Option.none =>
        -- Find header row if not found yet
        match find_header_row rows with
        | Except.error _ => Option.none
        | Except.ok (hidx, hrow) =>
          some (hidx, some (hidx, stringifyRow hrow, map_columns hrow))
      | some info =>
        -- For subsequent sheets, only the data-start offset is recomputed
        match find_header_row rows with
        | Except.error _ => Option.none
        | Except.ok (hidx, _) => some (hidx, some info)
    match headerRes with
    | Option.none =>
      { acc with warnings :=
          acc.warnings ++ [("Sheet ") ++ name ++ (" skipped - no header found")] }
    | some (header_idx, newInfo) =>
      let rent_type := get_rent_type_from_sheet name
      let block := extractSheetRows name rent_type header_idx (rows.drop (header_idx + 1)) 0
      { all_rows := acc.all_rows ++ block,
        headerInfo := newInfo,
        sheets_used := if 0 < block.length then acc.sheets_used ++ [name] else acc.sheets_used,
        warnings :=
          if 0 < block.length then acc.warnings
          else acc.warnings ++ [("Sheet ") ++ name ++ (" skipped - no data rows")] }

structure ExcelResult where
  sheets_found : List String
  sheets_used : List String
  header_row : Option ℕ
  columns : List String
  column_mapping : List (String × String)
  rows : List Row
  total_rows : ℕ
  parse_warnings : List String
  confidence : String
  summary : Summary
  data_quality : DataQuality

/-- Shallow embedding of `parse_excel`, taking the spreadsheet reader's
content (ordered sheets with their rows). -/
def parse_excel (sheets : List (String × List (List Cell))) :
    Except ParseError ExcelResult :=
  let acc := sheets.foldl excelSheetStep (ExcelAcc.mk [] Option.none [] [])
  match acc.headerInfo with
  | Option.none => Except.error ParseError.no_header_found
  | some info =>
    if acc.all_rows.isEmpty then Except.error ParseError.no_data_found
    else
      let sd := calculate_summary_stats acc.all_rows info.2.1 info.2.2
      Except.ok
        { sheets_found := sheets.map (fun s => s.1),
          sheets_used := acc.sheets_used,
          header_row := some (info.1 + 1),
          columns := info.2.1,
          column_mapping := info.2.2,
          rows := acc.all_rows,
          total_rows := acc.all_rows.length,
          parse_warnings := acc.warnings,
          confidence := "high",
          summary := sd.1,
          data_quality := sd.2 }

/-! ### PDF pipeline (`parse_pdf`, parser.py 622-751) -/

/-- One extracted table with the 1-based page it came from. -/
structure PdfTable where
  page : ℕ
  rows : List (List Cell)

/-- Collect tables across pages (lines 647-656): every extracted table with
more than one row, in page order. -/
def collectTables (pages : List (List (List (List Cell)))) : List PdfTable :=
  pages.enum.foldl (fun acc p =>
    acc ++ (p.2.filter (fun t => 1 < t.length)).map (fun t => PdfTable.mk (p.1 + 1) t)) []

/-- Header signature (lines 692, 703): the case-folded, stripped tuple of
the row's truthy cells. -/
def headerSig (row : List Cell) : List String :=
  row.filterMap (fun c =>
    match c with
    | some s => if s ≠ "" then some (pyStrip (pyLower s)) else Option.none
    | Option.none => Option.none)

/-- Data-row signature (line 724): the case-folded, stripped tuple of the
cells whose stripped text is non-empty. -/
def rowSig (raw : List String) : List String :=
  raw.filterMap (fun s => if pyStrip s ≠ "" then some (pyStrip (pyLower s)) else Option.none)

/-- The inner `for row_offset, row in enumerate(data_rows)` loop of
`parse_pdf` (lines 712-733): sentinels and thin rows are skipped (not
terminal), rows matching a seen header signature are dropped, row numbers
restart at `offset + 1` for every table. -/
def pdfExtractRows (page : ℕ) (seen : List (List String)) :
    List (List Cell) → ℕ → List Row
  | [], _ => []
  | row :: rest, off =>
    let restOut := pdfExtractRows page seen rest (off + 1)
    if is_end_row row then restOut
    else
      let raw_data := stringifyRow row
      let non_empty := (raw_data.filter (fun s => pyStrip s ≠ "")).length
      if non_empty < 2 then restOut
      else if rowSig raw_data ∈ seen then restOut
      else Row.mk raw_data (("page_") ++ toString page) (off + 1) Option.none :: restOut

/-- Loop state of `parse_pdf` across tables.  `data_rows` models the Python
loop variable of the same name, which persists across iterations (a later
empty table would re-process it; such tables never occur, since collected
tables have ≥ 2 rows and OCR pseudo-tables ≥ 1). -/
structure PdfAcc where
  all_rows : List Row
  headerInfo : Option (ℕ × List String × List (String × String))
  seen : List (List String)
  data_rows : List (List Cell)

/-- One table iteration of `parse_pdf` (lines 679-733). -/
def pdfTableStep (acc : PdfAcc) (tbl : PdfTable) : PdfAcc :=
  match acc.headerInfo with
  | Option.none =>
    match find_header_row tbl.rows with
    | Except.error _ => acc   -- continue: no extraction this iteration
    | Except.ok (hidx, hrow) =>
      let seen := acc.seen ++ [headerSig hrow]
      let data_rows := tbl.rows.drop (hidx + 1)
      { all_rows := acc.all_rows ++ pdfExtractRows tbl.page seen data_rows 0,
        headerInfo := some (hidx, stringifyRow hrow, map_columns hrow),
        seen := seen,
        data_rows := data_rows }
  | some _ =>
    let data_rows :=
      match tbl.rows with
      | [] => acc.data_rows   -- `if rows:` false: the variable keeps its old value
      | first_row :: _ =>
        if headerSig first_row ∈ acc.seen then tbl.rows.drop 1 else tbl.rows
    { acc with
      all_rows := acc.all_rows ++ pdfExtractRows tbl.page acc.seen data_rows 0,
      data_rows := data_rows }

/-- Split one OCR text line on runs of two or more whitespace characters or
a single tab (`re.split(r'\s{2,}|\t', line)`). -/
def ocrSplitAux (cur : List Char) : List Char → List (List Char)
  | [] => [cur.reverse]
  | c :: rest =>
    let nextWs : Bool :=
      match rest with
      | r :: _ => pyIsSpace r
      | [] => false
    if pyIsSpace c && (c = '\t' || nextWs) then
      cur.reverse :: ocrSplitAux [] (rest.dropWhile pyIsSpace)
    else ocrSplitAux (c :: cur) rest
termination_by l => l.length
decreasing_by
  · exact Nat.lt_succ_of_le (List.dropWhile_sublist pyIsSpace).length_le
  · simp

/-- Cells of one OCR line: split, strip, drop blanks (lines 776-777). -/
def ocrCells (line : String) : List String :=
  ((ocrSplitAux [] line.data).map (fun cs => pyStrip (String.mk cs))).filter
    (fun s => s ≠ "")

/-- Rows recognized on one OCR page (lines 770-779). -/
def ocrPageRows (text : String) : List (List Cell) :=
  (splitChar '\n' (pyStrip text).data).foldr (fun lineCs rows =>
    if pyStrip (String.mk lineCs) ≠ "" then
      let cells := ocrCells (String.mk lineCs)
      if cells ≠ [] then (cells.map some) :: rows else rows
    else rows) []

/-- `extract_tables_with_ocr` (parser.py 754-789), taking the recognized
text of each page; image rendering and recognition failures are outside the
pure model. -/
def extract_tables_with_ocr (texts : List String) : List PdfTable :=
  texts.enum.foldl (fun tables p =>
    let rows := ocrPageRows p.2
    if rows ≠ [] then tables ++ [PdfTable.mk (p.1 + 1) rows] else tables) []

structure PdfResult where
  pages : ℕ
  tables_found : ℕ
  ocr_used : Bool
  header_row : Option ℕ
  columns : List String
  column_mapping : List (String × String)
  rows : List Row
  total_rows : ℕ
  parse_warnings : List String
  confidence : String
  summary : Summary
  data_quality : DataQuality

/-- Shallow embedding of `parse_pdf`, taking the table extractor's content
(per page, a list of tables) and the OCR fallback's per-page text. -/
def parse_pdf (pages : List (List (List (List Cell)))) (ocrTexts : List String) :
    Except ParseError PdfResult :=
  let extracted := collectTables pages
  let tables_found := extracted.length
  let ocrNeeded := extracted.isEmpty
  let warnings : List String :=
    if ocrNeeded then [("No tables found with pdfplumber, attempting OCR")] else []
  let all_tables := if ocrNeeded then extract_tables_with_ocr ocrTexts else extracted
  let confidence := if ocrNeeded then "low" else "high"
  if all_tables.isEmpty then Except.error ParseError.no_data_found
  else
    let acc := all_tables.foldl pdfTableStep (PdfAcc.mk [] Option.none [] [])
    match acc.headerInfo with
    | Option.none => Except.error ParseError.no_header_found
    | some info =>
      if acc.all_rows.isEmpty then Except.error ParseError.no_data_found
      else
        let sd := calculate_summary_stats acc.all_rows info.2.1 info.2.2
        Except.ok
          { pages := pages.length,
            tables_found := tables_found,
            ocr_used := ocrNeeded,
            header_row := some (info.1 + 1),
            columns := info.2.1,
            column_mapping := info.2.2,
            rows := acc.all_rows,
            total_rows := acc.all_rows.length,
            parse_warnings := warnings,
            confidence := confidence,
            summary := sd.1,
            data_quality := sd.2 }

/-! ### Entry point (`parse_rent_roll`, parser.py 792-807) -/

inductive ParseOutput where
  | excel (r : ExcelResult)
  | pdf (r : PdfResult)

/-- Shallow embedding of `parse_rent_roll`.  The filesystem is abstracted
to an existence flag; the collaborators are oracles from the path to the
content they would deliver, so a result independent of the oracles shows no
read was attempted. -/
def parse_rent_roll (fileExists : Bool)
    (readExcel : String → List (String × List (List Cell)))
    (readPdfTables : String → List (List (List (List Cell))))
    (readOcr : String → List String)
    (file_path : String) : Except ParseError ParseOutput :=
  if ¬ fileExists then Except.error ParseError.file_not_found
  else
    match detect_file_type file_path with
    | Except.error e => Except.error e
    | Except.ok ft =>
      if ft = "excel" then (parse_excel (readExcel file_path)).map ParseOutput.excel
      else (parse_pdf (readPdfTables file_path) (readOcr file_path)).map ParseOutput.pdf

/-! ### Derived notions used by the verified properties -/

/-- The signature of an output result's header, recomputed from the
stringified `columns` field; `sigOfColumns_stringifyRow` shows it coincides
with `headerSig` of the original header row. -/
def sigOfColumns (cols : List String) : List String :=
  cols.filterMap (fun s => if s ≠ "" then some (pyStrip (pyLower s)) else Option.none)

/-- Within every source label, the `row_num` values of the output rows
appear in strictly increasing order. -/
def sourceMonotone (rows : List Row) : Prop :=
  ∀ label : String,
    List.Chain' (fun a b => a < b)
      ((rows.filter (fun r => r.source = label)).map Row.row_num)

/-- An all-zero summary, used as the unreachable fallback when naming a
successful parse result by matching on the pipeline's output. -/
def emptySummary : Summary :=
  ⟨0, 0, 0, 0, 0, 0, 0, Breakdown.init⟩

def emptyQuality : DataQuality :=
  ⟨[], [], [], []⟩

def emptyPdfResult : PdfResult :=
  ⟨0, 0, false, Option.none, [], [], [], 0, [], "", emptySummary, emptyQuality⟩

/-! ### Concrete inputs for the scenario properties -/

/-- The C1 workbook: one sheet with the scenario header and rows. -/
def wbC1 : List (String × List (List Cell)) :=
  [(("Sheet1"),
    [[some ("Lejemål"), some ("Areal"), some ("Leje")],
     [some ("A1"), some ("50"), some ("10.000")],
     [some ("A2"), some ("0"), some ("0")],
     [some ("A3"), some (""), some ("5.000")]])]

/-- A table whose first row scores 2 while a later row scores higher. -/
def rowsC2 : List (List Cell) :=
  [[some ("areal"), some ("leje")],
   [some ("areal"), some ("leje"), some ("etage")]]

/-- One PDF page delivering two tables: the header table and a
continuation table. -/
def pagesC7 : List (List (List (List Cell))) :=
  [[ [[some ("Lejemål"), some ("Areal"), some ("Leje")],
      [some ("A1"), some ("50"), some ("1000")],
      [some ("A2"), some ("60"), some ("2000")]],
     [[some ("B1"), some ("70"), some ("3000")],
      [some ("B2"), some ("80"), some ("4000")]] ]]

/-- The successful parse of `pagesC7`, named by matching on the output. -/
def resC7 : PdfResult :=
  match parse_pdf pagesC7 [] with
  | Except.ok r => r
  | Except.error _ => emptyPdfResult

/-- A PDF input whose second table leads with a repeated header row. -/
def pagesC5 : List (List (List (List Cell))) :=
  [[ [[some ("Lejemål"), some ("Areal"), some ("Leje")],
      [some ("A1"), some ("50"), some ("1000")],
      [some ("A2"), some ("60"), some ("2000")]] ],
   [ [[some ("Lejemål"), some ("Areal"), some ("Leje")],
      [some ("B1"), some ("70"), some ("3000")],
      [some ("LEJEMÅL"), some ("AREAL"), some ("LEJE")],
      [some ("B2"), some ("80"), some ("4000")]] ]]

/-- The successful parse of `pagesC5`, named by matching on the output. -/
def resC5 : PdfResult :=
  match parse_pdf pagesC5 [] with
  | Except.ok r => r
  | Except.error _ => emptyPdfResult

def emptyExcelResult : ExcelResult :=
  ⟨[], [], Option.none, [], [], [], 0, [], "", emptySummary, emptyQuality⟩

/-- The successful parse of `wbC1`, named by matching on the output. -/
def resC1ex : ExcelResult :=
  match parse_excel wbC1 with
  | Except.ok r => r
  | Except.error _ => emptyExcelResult

/-! ## Verified claims -/

/-- C9: the numeric normalizer is idempotent — feeding its own output
(`None` or a float) back into it returns that output unchanged, because a
`None` input returns `None` and a numeric input returns `float(value)`,
which is the value itself. -/
theorem convert_danish_number_idempotent (x : PyVal) :
    convert_danish_number (pyOfOpt (convert_danish_number x)) = convert_danish_number x := by
  cases h : convert_danish_number x <;> simp [pyOfOpt, convert_danish_number]

/-- C1: on the workbook with header `["Lejemål","Areal","Leje"]` and rows
`("A1","50","10.000")`, `("A2","0","0")`, `("A3","","5.000")`, the parse
maps the three headers to unit_id/sqm/annual_rent, numbers the data rows
2, 3, 4, and aggregates total_sqm = 50, total_annual_rent = 15000,
rows_missing_sqm = rows of A2 and A3, rows_missing_rent = row of A2, and
avg_rent_per_sqm = 200 — the mean of the qualifying row's own ratio
(10000/50, from A1 alone), not the ratio of totals 15000/50 = 300. -/
theorem parse_excel_scenario_stats :
    (parse_excel wbC1).map (fun r =>
      (r.columns, r.column_mapping,
       r.rows.map (fun (rw : Row) => (rw.raw.headD "", rw.row_num)),
       r.summary.total_sqm, r.summary.total_annual_rent,
       r.summary.avg_rent_per_sqm, r.summary.total_annual_rent / r.summary.total_sqm,
       r.data_quality.rows_missing_sqm, r.data_quality.rows_missing_rent)) =
    Except.ok ([("Lejemål"), ("Areal"), ("Leje")],
      [(("Lejemål"), ("unit_id")), (("Areal"), ("sqm")), (("Leje"), ("annual_rent"))],
      [(("A1"), 2), (("A2"), 3), (("A3"), 4)],
      50, 15000, 200, 300, [3, 4], [3]) := by
  with_unfolding_all rfl

/-- C4: the five header strings map to their canonical tags, and the
mapper's mechanism is exact lower-cased lookup first, else the first
`COLUMN_MAPPING` entry in declaration order whose synonym is a substring
of the header or vice versa. -/
theorem map_columns_spec :
    map_columns [some ("Lejnr."), some ("Areal"), some ("Leje"), some ("Etage"),
        some ("Bem.")] =
      [(("Lejnr."), ("unit_id")), (("Areal"), ("sqm")), (("Leje"), ("annual_rent")),
       (("Etage"), ("floor")), (("Bem."), ("notes"))] ∧
    (∀ s : String, (dictGet COLUMN_MAPPING (pyLower s)).isSome = true →
      mapHeader s = dictGet COLUMN_MAPPING (pyLower s)) ∧
    (∀ s : String, dictGet COLUMN_MAPPING (pyLower s) = Option.none →
      mapHeader s =
        (COLUMN_MAPPING.find? (fun p => pyIn p.1 (pyLower s) || pyIn (pyLower s) p.1)).map
          (fun p => p.2)) := by
  refine ⟨by with_unfolding_all rfl, ?_, ?_⟩
  · intro s h
    cases hd : dictGet COLUMN_MAPPING (pyLower s) with
    | none => rw [hd] at h; simp at h
    | some std => simp [mapHeader, hd]
  · intro s h
    simp [mapHeader, h]

/-- Witness for C4: `"Areal"` hits the exact lower-cased lookup. -/
theorem map_columns_spec_witness :
    mapHeader ("Areal") = dictGet COLUMN_MAPPING (pyLower ("Areal")) :=
  map_columns_spec.2.1 ("Areal") (by rfl)

/-- C8: with the file present, any path whose lower-cased extension is
neither a spreadsheet extension nor `.pdf` fails with InvalidFileType, for
every possible collaborator content — so no read of the file is attempted. -/
theorem parse_rent_roll_invalid_extension
    (readExcel : String → List (String × List (List Cell)))
    (readPdfTables : String → List (List (List (List Cell))))
    (readOcr : String → List String) (p : String)
    (h1 : pyLower (pathSuffix p) ≠ ".xlsx")
    (h2 : pyLower (pathSuffix p) ≠ ".xls")
    (h3 : pyLower (pathSuffix p) ≠ ".pdf") :
    parse_rent_roll true readExcel readPdfTables readOcr p =
      Except.error ParseError.invalid_file_type := by
  simp [parse_rent_roll, detect_file_type, h1, h2, h3]

/-- Witness for C8: a `.docx` file fails with InvalidFileType. -/
theorem parse_rent_roll_invalid_extension_witness :
    parse_rent_roll true (fun _ => []) (fun _ => []) (fun _ => []) ("schedule.docx") =
      Except.error ParseError.invalid_file_type :=
  parse_rent_roll_invalid_extension _ _ _ ("schedule.docx")
    (by decide) (by decide) (by decide)

/-- Counterexample for C3: the code removes a single period when exactly 3
*characters* (not digits) follow it.  In the cleaned value `1.5e3` the
period is followed by only one digit (`['5']`, then `e3`), so under the
claim's digit rule the period would be kept and the value would parse as
`1500`; the code strips the period and returns `15000`. -/
theorem convert_danish_number_digit_rule_cex :
    convertStr ("1.5e3") = some 15000 ∧
    pyFloat (stripCurrency (pyStrip ("1.5e3")).data) = some 1500 ∧
    (((splitDot (stripCurrency (pyStrip ("1.5e3")).data)).drop 1).headD []).takeWhile
        Char.isDigit = [('5' : Char)] ∧
    (15000 : ℚ) ≠ 1500 := by
  refine ⟨by with_unfolding_all rfl, by with_unfolding_all rfl,
    by with_unfolding_all rfl, by norm_num⟩

/-- C3 (amended): the five documented conversions hold, and the separator
rules are: with a comma present, all periods are removed and the comma
becomes the decimal point; without a comma, a single period with exactly 3
characters after it and at most 3 characters before it is removed as a
thousands separator, any other single period is kept; the result is then
parsed as a float. -/
theorem convert_danish_number_spec :
    convertStr ("72.000") = some 72000 ∧
    convertStr ("1.234,56") = some ((123456 : ℚ) / 100) ∧
    convertStr ("kr 72.000") = some 72000 ∧
    convertStr ("") = Option.none ∧
    convertStr ("1.5") = some ((3 : ℚ) / 2) ∧
    (∀ v : List Char, ',' ∈ v →
      normalizeSeparators v =
        (v.filter (fun c => c ≠ '.')).map (fun c => if c = ',' then '.' else c)) ∧
    (∀ v : List Char, ',' ∉ v → v.count '.' = 1 →
      (((splitDot v).drop 1).headD []).length = 3 → ((splitDot v).headD []).length ≤ 3 →
      normalizeSeparators v = v.filter (fun c => c ≠ '.')) ∧
    (∀ v : List Char, ',' ∉ v → v.count '.' = 1 →
      ¬ ((((splitDot v).drop 1).headD []).length = 3 ∧ ((splitDot v).headD []).length ≤ 3) →
      normalizeSeparators v = v) ∧
    (∀ s : String, pyStrip s ≠ "" → hasDigit (stripCurrency (pyStrip s).data) = true →
      convertStr s = pyFloat (normalizeSeparators (stripCurrency (pyStrip s).data))) := by
  refine ⟨by with_unfolding_all rfl, ?_, by with_unfolding_all rfl, by rfl,
    ?_, ?_, ?_, ?_, ?_⟩
  · show convertStr ("1.234,56") = some ((123456 : ℚ) / 100)
    have h : convertStr ("1.234,56") = some (ratOfParts (true, 123456, 2, true, 0)) := rfl
    rw [h, ratOfParts]
    norm_num
  · show convertStr ("1.5") = some ((3 : ℚ) / 2)
    have h : convertStr ("1.5") = some (ratOfParts (true, 15, 1, true, 0)) := rfl
    rw [h, ratOfParts]
    norm_num
  · intro v hmem
    simp [normalizeSeparators, hmem]
  · intro v hmem hcount h3 hle
    simp only [normalizeSeparators]
    rw [if_neg hmem, if_pos hcount, if_pos (And.intro h3 hle)]
  · intro v hmem hcount hne
    simp only [normalizeSeparators]
    rw [if_neg hmem, if_pos hcount, if_neg hne]
  · intro s h1 h2
    simp [convertStr, convert_danish_number, h1, h2]

/-- Witness for C3: the thousands-separator branch fires on `72.000`. -/
theorem convert_danish_number_spec_witness :
    normalizeSeparators ("72.000").data = ("72.000").data.filter (fun c => c ≠ '.') :=
  convert_danish_number_spec.2.2.2.2.2.2.1 ("72.000").data
    (by decide) (by decide) (by decide) (by decide)

/-! ### C10: per-measure partition of the rows -/

theorem statStepSqm_count (i : Option ℕ) (raw : List String) (rn : ℕ) (acc : StatAcc) :
    (statStepSqm i raw rn acc).units_with_sqm +
        (statStepSqm i raw rn acc).rows_missing_sqm.length =
      acc.units_with_sqm + acc.rows_missing_sqm.length + 1 ∧
    (statStepSqm i raw rn acc).units_with_rent = acc.units_with_rent ∧
    (statStepSqm i raw rn acc).rows_missing_rent = acc.rows_missing_rent := by
  rcases i with _ | i
  · simp [statStepSqm]
    omega
  · by_cases hb : i < raw.length
    · rcases hc : convertStr (raw.getD i "") with _ | v
      · simp only [statStepSqm, if_pos hb]
        rw [hc]
        simp
        omega
      · by_cases hv : 0 < v
        · simp only [statStepSqm, if_pos hb]
          rw [hc]
          simp [hv]
          omega
        · simp only [statStepSqm, if_pos hb]
          rw [hc]
          simp [hv]
          omega
    · simp only [statStepSqm, if_neg hb]
      simp
      omega

theorem statStepRent_count (i : Option ℕ) (sv : Option ℚ) (raw : List String) (rn : ℕ)
    (acc : StatAcc) :
    (statStepRent i sv raw rn acc).units_with_rent +
        (statStepRent i sv raw rn acc).rows_missing_rent.length =
      acc.units_with_rent + acc.rows_missing_rent.length + 1 ∧
    (statStepRent i sv raw rn acc).units_with_sqm = acc.units_with_sqm ∧
    (statStepRent i sv raw rn acc).rows_missing_sqm = acc.rows_missing_sqm := by
  rcases i with _ | i
  · simp [statStepRent]
    omega
  · by_cases hb : i < raw.length
    · rcases hc : convertStr (raw.getD i "") with _ | v
      · simp only [statStepRent, if_pos hb]
        rw [hc]
        simp
        omega
      · by_cases hv : 0 < v
        · simp only [statStepRent, if_pos hb]
          rw [hc]
          simp [hv]
          omega
        · by_cases hz : v = 0
          · rcases sv with _ | s
            · simp only [statStepRent, if_pos hb]
              rw [hc]
              simp [hv, hz]
              omega
            · by_cases hs : 0 < s
              · simp only [statStepRent, if_pos hb]
                rw [hc]
                simp [hv, hz, hs]
                omega
              · simp only [statStepRent, if_pos hb]
                rw [hc]
                simp [hv, hz, hs]
                omega
          · simp only [statStepRent, if_pos hb]
            rw [hc]
            simp [hv, hz]
            omega
    · simp only [statStepRent, if_neg hb]
      simp
      omega

theorem statStepBreak_frame (cat : String) (sv rv : Option ℚ) (acc : StatAcc) :
    (statStepBreak cat sv rv acc).units_with_sqm = acc.units_with_sqm ∧
    (statStepBreak cat sv rv acc).rows_missing_sqm = acc.rows_missing_sqm ∧
    (statStepBreak cat sv rv acc).units_with_rent = acc.units_with_rent ∧
    (statStepBreak cat sv rv acc).rows_missing_rent = acc.rows_missing_rent := by
  unfold statStepBreak
  cases sv with
  | none =>
    cases rv with
    | none => simp
    | some w => by_cases hw : 0 < w <;> simp [hw]
  | some v =>
    cases rv with
    | none => by_cases hv : 0 < v <;> simp [hv]
    | some w =>
      by_cases hv : 0 < v <;> by_cases hw : 0 < w <;> simp [hv, hw]

theorem statStepVacancy_frame (i : Option ℕ) (cat : String) (raw : List String)
    (acc : StatAcc) :
    (statStepVacancy i cat raw acc).units_with_sqm = acc.units_with_sqm ∧
    (statStepVacancy i cat raw acc).rows_missing_sqm = acc.rows_missing_sqm ∧
    (statStepVacancy i cat raw acc).units_with_rent = acc.units_with_rent ∧
    (statStepVacancy i cat raw acc).rows_missing_rent = acc.rows_missing_rent := by
  rcases i with _ | i
  · simp [statStepVacancy]
  · simp only [statStepVacancy]
    split
    · split <;> simp
    · simp

theorem statStepRps_frame (sv rv : Option ℚ) (acc : StatAcc) :
    (statStepRps sv rv acc).units_with_sqm = acc.units_with_sqm ∧
    (statStepRps sv rv acc).rows_missing_sqm = acc.rows_missing_sqm ∧
    (statStepRps sv rv acc).units_with_rent = acc.units_with_rent ∧
    (statStepRps sv rv acc).rows_missing_rent = acc.rows_missing_rent := by
  unfold statStepRps
  cases sv with
  | none => cases rv <;> simp
  | some v =>
    cases rv with
    | none => simp
    | some w => by_cases h : 0 < v ∧ 0 < w <;> simp [h]

theorem statStep_count (i1 i2 i3 i4 : Option ℕ) (acc : StatAcc) (row : Row) :
    (statStep i1 i2 i3 i4 acc row).units_with_sqm +
        (statStep i1 i2 i3 i4 acc row).rows_missing_sqm.length =
      acc.units_with_sqm + acc.rows_missing_sqm.length + 1 ∧
    (statStep i1 i2 i3 i4 acc row).units_with_rent +
        (statStep i1 i2 i3 i4 acc row).rows_missing_rent.length =
      acc.units_with_rent + acc.rows_missing_rent.length + 1 := by
  unfold statStep
  obtain ⟨s1, s2, s3⟩ := statStepSqm_count i1 row.raw row.row_num acc
  obtain ⟨r1, r2, r3⟩ := statStepRent_count i2 (fetchIdx i1 row.raw) row.raw row.row_num
    (statStepSqm i1 row.raw row.row_num acc)
  obtain ⟨b1, b2, b3, b4⟩ := statStepBreak_frame (rowCategory i3 row.raw)
    (fetchIdx i1 row.raw) (fetchIdx i2 row.raw)
    (statStepRent i2 (fetchIdx i1 row.raw) row.raw row.row_num
      (statStepSqm i1 row.raw row.row_num acc))
  obtain ⟨v1, v2, v3, v4⟩ := statStepVacancy_frame i4 (rowCategory i3 row.raw) row.raw
    (statStepBreak (rowCategory i3 row.raw) (fetchIdx i1 row.raw) (fetchIdx i2 row.raw)
      (statStepRent i2 (fetchIdx i1 row.raw) row.raw row.row_num
        (statStepSqm i1 row.raw row.row_num acc)))
  obtain ⟨p1, p2, p3, p4⟩ := statStepRps_frame (fetchIdx i1 row.raw) (fetchIdx i2 row.raw)
    (statStepVacancy i4 (rowCategory i3 row.raw) row.raw
      (statStepBreak (rowCategory i3 row.raw) (fetchIdx i1 row.raw) (fetchIdx i2 row.raw)
        (statStepRent i2 (fetchIdx i1 row.raw) row.raw row.row_num
          (statStepSqm i1 row.raw row.row_num acc))))
  constructor
  · rw [p1, p2, v1, v2, b1, b2, r2, r3]
    omega
  · have s3l := congrArg List.length s3
    rw [p3, p4, v3, v4, b3, b4]
    omega

theorem statFold_count (i1 i2 i3 i4 : Option ℕ) (rows : List Row) (acc : StatAcc) :
    (rows.foldl (statStep i1 i2 i3 i4) acc).units_with_sqm +
        (rows.foldl (statStep i1 i2 i3 i4) acc).rows_missing_sqm.length =
      acc.units_with_sqm + acc.rows_missing_sqm.length + rows.length ∧
    (rows.foldl (statStep i1 i2 i3 i4) acc).units_with_rent +
        (rows.foldl (statStep i1 i2 i3 i4) acc).rows_missing_rent.length =
      acc.units_with_rent + acc.rows_missing_rent.length + rows.length := by
  induction rows generalizing acc with
  | nil => simp
  | cons row rest ih =>
    obtain ⟨h1, h2⟩ := statStep_count i1 i2 i3 i4 acc row
    obtain ⟨ih1, ih2⟩ := ih (statStep i1 i2 i3 i4 acc row)
    simp only [List.foldl_cons, List.length_cons]
    omega

/-- C10: every row is classified into exactly one outcome per measure:
`units_with_sqm` plus the length of `rows_missing_sqm` equals the number of
rows, and likewise for rent. -/
theorem summary_counts_partition (rows : List Row) (columns : List String)
    (cm : List (String × String)) :
    (calculate_summary_stats rows columns cm).1.units_with_sqm +
        ((calculate_summary_stats rows columns cm).2.rows_missing_sqm).length =
      rows.length ∧
    (calculate_summary_stats rows columns cm).1.units_with_rent +
        ((calculate_summary_stats rows columns cm).2.rows_missing_rent).length =
      rows.length := by
  unfold calculate_summary_stats
  have h := statFold_count (dictGet (standard_to_idx columns cm) ("sqm"))
    (dictGet (standard_to_idx columns cm) ("annual_rent"))
    (dictGet (standard_to_idx columns cm) ("unit_type"))
    (dictGet (standard_to_idx columns cm) ("unit_status")) rows StatAcc.init
  simp only [StatAcc.init] at h
  simpa using h

/-! ### C6: sentinel rows terminate sheet extraction but not PDF extraction -/

/-- C6: in the spreadsheet pipeline, row extraction processes exactly the
rows before the first sentinel (nothing after it is extracted); in the
PDF pipeline a sentinel row is merely skipped — extraction continues on
the rows after it with the offset advanced — and extraction distributes
over concatenation, so later rows never depend on an earlier sentinel. -/
theorem sentinel_handling_spec :
    (∀ (source : String) (rent_type : Option String) (header_idx : ℕ)
        (dataRows : List (List Cell)) (off : ℕ),
      extractSheetRows source rent_type header_idx dataRows off =
        extractSheetRows source rent_type header_idx
          (dataRows.takeWhile (fun r => ! is_end_row r)) off) ∧
    (∀ (page : ℕ) (seen : List (List String)) (s : List Cell)
        (post : List (List Cell)) (off : ℕ),
      is_end_row s = true →
      pdfExtractRows page seen (s :: post) off = pdfExtractRows page seen post (off + 1)) ∧
    (∀ (page : ℕ) (seen : List (List String)) (l₁ l₂ : List (List Cell)) (off : ℕ),
      pdfExtractRows page seen (l₁ ++ l₂) off =
        pdfExtractRows page seen l₁ off ++ pdfExtractRows page seen l₂ (off + l₁.length)) := by
  refine ⟨?_, ?_, ?_⟩
  · intro source rent_type header_idx dataRows off
    induction dataRows generalizing off with
    | nil => rfl
    | cons row rest ih =>
      by_cases he : is_end_row row
      · simp [extractSheetRows, he]
      · have he' : is_end_row row = false := by simpa using he
        simp only [List.takeWhile_cons, he', Bool.not_false, if_true, extractSheetRows,
          Bool.false_eq_true, if_false]
        split
        · exact ih (off + 1)
        · rw [ih]
  · intro page seen s post off h
    simp [pdfExtractRows, h]
  · intro page seen l₁ l₂ off
    induction l₁ generalizing off with
    | nil => simp [pdfExtractRows]
    | cons row rest ih =>
      have harith : off + 1 + rest.length = off + (rest.length + 1) := by omega
      simp only [List.cons_append, pdfExtractRows, List.append_eq, ih, harith,
        List.length_cons]
      split
      · rfl
      · split
        · rfl
        · split
          · rfl
          · simp

/-- Witness for C6: a totals row inside a PDF table is skipped and
extraction continues with the next offset. -/
theorem sentinel_handling_spec_witness :
    pdfExtractRows 1 []
        ([some ("Total"), some ("100"), some ("5000")] ::
          [[some ("A1"), some ("50"), some ("1000")]]) 0 =
      pdfExtractRows 1 [] [[some ("A1"), some ("50"), some ("1000")]] 1 :=
  sentinel_handling_spec.2.1 1 [] _ _ 0 (by decide)

/-! ### C5: rows matching an accepted header signature are dropped (PDF) -/

theorem sigOfColumns_stringifyRow (row : List Cell) :
    sigOfColumns (stringifyRow row) = headerSig row := by
  induction row with
  | nil => rfl
  | cons c t ih =>
    cases c with
    | none => simpa [sigOfColumns, stringifyRow, headerSig] using ih
    | some s =>
      by_cases hs : s = "" <;>
        simpa [sigOfColumns, stringifyRow, headerSig, hs] using ih

theorem pdfExtractRows_sig_not_seen (page : ℕ) (seen : List (List String))
    (l : List (List Cell)) (off : ℕ) :
    ∀ r ∈ pdfExtractRows page seen l off, rowSig r.raw ∉ seen := by
  induction l generalizing off with
  | nil => simp [pdfExtractRows]
  | cons row rest ih =>
    intro r hr
    simp only [pdfExtractRows] at hr
    split at hr
    · exact ih (off + 1) r hr
    · split at hr
      · exact ih (off + 1) r hr
      · split at hr
        · exact ih (off + 1) r hr
        · rcases List.mem_cons.mp hr with rfl | hr2
          · simpa using (by assumption : ¬ rowSig (stringifyRow row) ∈ seen)
          · exact ih (off + 1) r hr2

theorem pdfFold_inv (tables : List PdfTable) (acc : PdfAcc)
    (h1 : ∀ info, acc.headerInfo = some info → acc.seen = [sigOfColumns info.2.1])
    (h2 : acc.headerInfo = Option.none → acc.all_rows = [] ∧ acc.seen = [])
    (h3 : ∀ r ∈ acc.all_rows, rowSig r.raw ∉ acc.seen) :
    (∀ info, (tables.foldl pdfTableStep acc).headerInfo = some info →
      (tables.foldl pdfTableStep acc).seen = [sigOfColumns info.2.1]) ∧
    ((tables.foldl pdfTableStep acc).headerInfo = Option.none →
      (tables.foldl pdfTableStep acc).all_rows = [] ∧
        (tables.foldl pdfTableStep acc).seen = []) ∧
    (∀ r ∈ (tables.foldl pdfTableStep acc).all_rows,
      rowSig r.raw ∉ (tables.foldl pdfTableStep acc).seen) := by
  induction tables generalizing acc with
  | nil => exact ⟨h1, h2, h3⟩
  | cons tbl rest ih =>
    simp only [List.foldl_cons]
    rcases hinfo : acc.headerInfo with _ | info0
    · rcases hfind : find_header_row tbl.rows with e | hr
      · have hstep : pdfTableStep acc tbl = acc := by
          simp [pdfTableStep, hinfo, hfind]
        rw [hstep]
        exact ih acc h1 h2 h3
      · obtain ⟨hrows, hseen⟩ := h2 hinfo
        have hstep : pdfTableStep acc tbl =
            { all_rows := acc.all_rows ++
                pdfExtractRows tbl.page (acc.seen ++ [headerSig hr.2])
                  (tbl.rows.drop (hr.1 + 1)) 0,
              headerInfo := some (hr.1, stringifyRow hr.2, map_columns hr.2),
              seen := acc.seen ++ [headerSig hr.2],
              data_rows := tbl.rows.drop (hr.1 + 1) } := by
          simp [pdfTableStep, hinfo, hfind]
        rw [hstep]
        apply ih
        · intro info hi
          simp only at hi
          injection hi with hi
          subst hi
          simp [hrows, hseen, sigOfColumns_stringifyRow]
        · intro hi
          simp at hi
        · intro r hr2
          simp only [hrows, List.nil_append] at hr2 ⊢
          exact pdfExtractRows_sig_not_seen tbl.page (acc.seen ++ [headerSig hr.2])
            (tbl.rows.drop (hr.1 + 1)) 0 r hr2
    · have hstep : pdfTableStep acc tbl =
          { acc with
            all_rows := acc.all_rows ++
              pdfExtractRows tbl.page acc.seen
                (match tbl.rows with
                 | [] => acc.data_rows
                 | first_row :: _ =>
                   if headerSig first_row ∈ acc.seen then tbl.rows.drop 1 else tbl.rows) 0,
            data_rows :=
              match tbl.rows with
              | [] => acc.data_rows
              | first_row :: _ =>
                if headerSig first_row ∈ acc.seen then tbl.rows.drop 1 else tbl.rows } := by
        simp [pdfTableStep, hinfo]
      rw [hstep]
      apply ih
      · intro info hi
        simp only at hi
        exact h1 info (hinfo ▸ hi)
      · intro hi
        simp only at hi
        rw [hinfo] at hi
        cases hi
      · intro r hr2
        simp only at hr2 ⊢
        rcases List.mem_append.mp hr2 with hold | hnew
        · exact h3 r hold
        · exact pdfExtractRows_sig_not_seen tbl.page acc.seen _ 0 r hnew

theorem pdfMergeRows_no_dup (tables : List PdfTable)
    (info : ℕ × List String × List (String × String))
    (hinfo : (tables.foldl pdfTableStep (PdfAcc.mk [] Option.none [] [])).headerInfo =
      some info) :
    ∀ row ∈ (tables.foldl pdfTableStep (PdfAcc.mk [] Option.none [] [])).all_rows,
      rowSig row.raw ≠ sigOfColumns info.2.1 := by
  obtain ⟨i1, i2, i3⟩ := pdfFold_inv tables (PdfAcc.mk [] Option.none [] [])
    (by intro info hi; cases hi)
    (by intro _; exact ⟨rfl, rfl⟩)
    (by intro r hr; cases hr)
  intro row hrow
  have hseen := i1 info hinfo
  have hnot := i3 row hrow
  rw [hseen] at hnot
  simpa using hnot

/-- C5: in the PDF pipeline no output data row carries the accepted
header's case-insensitive non-empty-cell signature — any row matching it,
whether leading a later merged table or embedded among data rows, is
dropped before being counted. -/
theorem parse_pdf_no_header_dup_rows
    (pages : List (List (List (List Cell)))) (ocrTexts : List String) (res : PdfResult)
    (h : parse_pdf pages ocrTexts = Except.ok res) :
    ∀ row ∈ res.rows, rowSig row.raw ≠ sigOfColumns res.columns := by
  simp only [parse_pdf] at h
  by_cases hocr : (collectTables pages).isEmpty
  · simp only [if_pos hocr] at h
    by_cases hemp : (extract_tables_with_ocr ocrTexts).isEmpty
    · simp only [if_pos hemp] at h; cases h
    · simp only [if_neg hemp] at h
      rcases hinfo : (List.foldl pdfTableStep (PdfAcc.mk [] Option.none [] [])
          (extract_tables_with_ocr ocrTexts)).headerInfo with _ | info
      · simp only [hinfo] at h; cases h
      · simp only [hinfo] at h
        by_cases hrows : (List.foldl pdfTableStep (PdfAcc.mk [] Option.none [] [])
            (extract_tables_with_ocr ocrTexts)).all_rows.isEmpty
        · simp only [if_pos hrows] at h; cases h
        · simp only [if_neg hrows] at h
          rw [Except.ok.injEq] at h
          subst h
          intro row hrow
          exact pdfMergeRows_no_dup (extract_tables_with_ocr ocrTexts) info hinfo row hrow
  · simp only [if_neg hocr] at h
    rcases hinfo : (List.foldl pdfTableStep (PdfAcc.mk [] Option.none [] [])
        (collectTables pages)).headerInfo with _ | info
    · simp only [hinfo] at h; cases h
    · simp only [hinfo] at h
      by_cases hrows : (List.foldl pdfTableStep (PdfAcc.mk [] Option.none [] [])
          (collectTables pages)).all_rows.isEmpty
      · simp only [if_pos hrows] at h; cases h
      · simp only [if_neg hrows] at h
        rw [Except.ok.injEq] at h
        subst h
        intro row hrow
        exact pdfMergeRows_no_dup (collectTables pages) info hinfo row hrow

/-! ### C2: the header locator selects the best-scoring row -/

theorem pairwise_fst_lt_enumFrom {α : Type} (n : ℕ) (l : List α) :
    List.Pairwise (fun a b => a.1 < b.1) (List.enumFrom n l) := by
  induction l generalizing n with
  | nil => simp
  | cons x t ih =>
    rw [List.enumFrom_cons]
    refine List.Pairwise.cons ?_ (ih (n + 1))
    intro p hp
    obtain ⟨i, a⟩ := p
    have h := (List.mk_mem_enumFrom_iff_le_and_getElem?_sub.mp hp).1
    simpa using Nat.lt_of_succ_le h

theorem pairwise_fst_lt_enum {α : Type} (l : List α) :
    List.Pairwise (fun a b => a.1 < b.1) l.enum := by
  simpa [List.enum] using pairwise_fst_lt_enumFrom 0 l

theorem rowScore_nil : rowScore [] = 0 := by
  simp [rowScore, prepCells]

theorem headerFold_spec (l : List (ℕ × List Cell)) (acc : ℕ × Option (ℕ × List Cell))
    (hpair : List.Pairwise (fun a b => a.1 < b.1) l)
    (hidx : ∀ i r, acc.2 = some (i, r) → ∀ p ∈ l, i < p.1)
    (hnone : acc.2 = Option.none → acc.1 = 0)
    (hsome : ∀ i r, acc.2 = some (i, r) → rowScore r = acc.1 ∧ 0 < acc.1) :
    acc.1 ≤ (l.foldl headerStep acc).1 ∧
    (∀ p ∈ l, rowScore p.2 ≤ (l.foldl headerStep acc).1) ∧
    ((l.foldl headerStep acc).2 = Option.none → l.foldl headerStep acc = acc) ∧
    (∀ i r, (l.foldl headerStep acc).2 = some (i, r) →
      rowScore r = (l.foldl headerStep acc).1 ∧ 0 < (l.foldl headerStep acc).1 ∧
      (((i, r) ∈ l ∧ acc.1 < (l.foldl headerStep acc).1) ∨
        (acc.2 = some (i, r) ∧ (l.foldl headerStep acc).1 = acc.1)) ∧
      (∀ p ∈ l, p.1 < i → rowScore p.2 < (l.foldl headerStep acc).1)) := by
  induction l generalizing acc with
  | nil =>
    refine ⟨Nat.le_refl _, by simp, fun _ => rfl, ?_⟩
    intro i r hsome2
    obtain ⟨h1, h2⟩ := hsome i r hsome2
    exact ⟨h1, h2, Or.inr ⟨hsome2, rfl⟩, by simp⟩
  | cons q t ih =>
    obtain ⟨qi, qr⟩ := q
    rw [List.pairwise_cons] at hpair
    obtain ⟨hq, hpair2⟩ := hpair
    simp only [List.foldl_cons]
    by_cases hqe : (qi, qr).2.isEmpty
    · have hstep : headerStep acc (qi, qr) = acc := by
        simp [headerStep, hqe]
      rw [hstep]
      obtain ⟨A, B, C, D⟩ := ih acc hpair2
        (fun i r h p hp => hidx i r h p (List.mem_cons_of_mem _ hp)) hnone hsome
      have hq2 : qr = [] := by simpa using List.isEmpty_iff.mp hqe
      have hscoreq : rowScore (qi, qr).2 = 0 := by simp [hq2, rowScore_nil]
      refine ⟨A, ?_, C, ?_⟩
      · intro p hp
        rcases List.mem_cons.mp hp with rfl | hp2
        · rw [hscoreq]; exact Nat.zero_le _
        · exact B p hp2
      · intro i r hres
        obtain ⟨D1, D2, D3, D4⟩ := D i r hres
        refine ⟨D1, D2, ?_, ?_⟩
        · rcases D3 with ⟨hm, hlt⟩ | hkeep
          · exact Or.inl ⟨List.mem_cons_of_mem _ hm, hlt⟩
          · exact Or.inr hkeep
        · intro p hp hpi
          rcases List.mem_cons.mp hp with rfl | hp2
          · rw [hscoreq]; exact D2
          · exact D4 p hp2 hpi
    · by_cases hup : acc.1 < rowScore (qi, qr).2
      · have hstep : headerStep acc (qi, qr) = (rowScore (qi, qr).2, some (qi, qr)) := by
          simp [headerStep, hqe, hup]
        rw [hstep]
        have hidx2 : ∀ i r, (rowScore (qi, qr).2, some (qi, qr)).2 = some (i, r) →
            ∀ p ∈ t, i < p.1 := by
          intro i r h p hp
          rw [Option.some.injEq, Prod.mk.injEq] at h
          rw [← h.1]
          exact hq p hp
        have hnone2 : (rowScore (qi, qr).2, some (qi, qr)).2 = Option.none →
            (rowScore (qi, qr).2, some (qi, qr)).1 = 0 := by
          intro h; cases h
        have hsome2 : ∀ i r, (rowScore (qi, qr).2, some (qi, qr)).2 = some (i, r) →
            rowScore r = (rowScore (qi, qr).2, some (qi, qr)).1 ∧
              0 < (rowScore (qi, qr).2, some (qi, qr)).1 := by
          intro i r h
          rw [Option.some.injEq, Prod.mk.injEq] at h
          rw [← h.2]
          exact ⟨rfl, by omega⟩
        obtain ⟨A, B, C, D⟩ := ih (rowScore (qi, qr).2, some (qi, qr)) hpair2
          hidx2 hnone2 hsome2
        refine ⟨Nat.le_trans (Nat.le_of_lt hup) A, ?_, ?_, ?_⟩
        · intro p hp
          rcases List.mem_cons.mp hp with rfl | hp2
          · exact A
          · exact B p hp2
        · intro hres
          have hC := C hres
          rw [hC] at hres
          exact absurd hres (by simp)
        · intro i r hres
          obtain ⟨D1, D2, D3, D4⟩ := D i r hres
          refine ⟨D1, D2, ?_, ?_⟩
          · rcases D3 with ⟨hm, hlt⟩ | ⟨hkeep, heq⟩
            · exact Or.inl ⟨List.mem_cons_of_mem _ hm, Nat.lt_of_lt_of_le hup
                (Nat.le_of_lt hlt)⟩
            · rw [Option.some.injEq] at hkeep
              refine Or.inl ⟨?_, ?_⟩
              · rw [← hkeep]; exact List.mem_cons_self _ _
              · rw [heq]; exact hup
          · intro p hp hpi
            rcases List.mem_cons.mp hp with rfl | hp2
            · rcases D3 with ⟨hm, hlt⟩ | ⟨hkeep, heq⟩
              · exact Nat.lt_of_le_of_lt (Nat.le_refl _) hlt
              · rw [Option.some.injEq, Prod.mk.injEq] at hkeep
                omega
            · exact D4 p hp2 hpi
      · have hstep : headerStep acc (qi, qr) = acc := by
          simp [headerStep, hqe, hup]
        rw [hstep]
        obtain ⟨A, B, C, D⟩ := ih acc hpair2
          (fun i r h p hp => hidx i r h p (List.mem_cons_of_mem _ hp)) hnone hsome
        refine ⟨A, ?_, C, ?_⟩
        · intro p hp
          rcases List.mem_cons.mp hp with rfl | hp2
          · exact Nat.le_trans (Nat.le_of_not_lt hup) A
          · exact B p hp2
        · intro i r hres
          obtain ⟨D1, D2, D3, D4⟩ := D i r hres
          refine ⟨D1, D2, ?_, ?_⟩
          · rcases D3 with ⟨hm, hlt⟩ | hkeep
            · exact Or.inl ⟨List.mem_cons_of_mem _ hm, hlt⟩
            · exact Or.inr hkeep
          · intro p hp hpi
            rcases List.mem_cons.mp hp with rfl | hp2
            · rcases D3 with ⟨hm, hlt⟩ | ⟨hkeep, heq⟩
              · exact Nat.lt_of_le_of_lt (Nat.le_of_not_lt hup) hlt
              · have := hidx i r hkeep (qi, qr) (List.mem_cons_self _ _)
                simp only at this
                omega
            · exact D4 p hp2 hpi

/-- C2 (amended): on success the header locator returns a row of the
scanned window (the first 15 rows) whose score is at least 2, maximal
within the window, and strictly greater than every earlier row's score
(ties favor the earliest index); it fails — always with NoHeaderFound —
exactly when every row of the window scores below 2. -/
theorem find_header_row_best_score_spec :
    (∀ (rows : List (List Cell)) (i : ℕ) (r : List Cell),
      find_header_row rows = Except.ok (i, r) →
      (rows.take 15)[i]? = some r ∧ 2 ≤ rowScore r ∧
      (∀ (j : ℕ) (row' : List Cell),
        (rows.take 15)[j]? = some row' → rowScore row' ≤ rowScore r) ∧
      (∀ (j : ℕ) (row' : List Cell),
        j < i → (rows.take 15)[j]? = some row' → rowScore row' < rowScore r)) ∧
    (∀ (rows : List (List Cell)) (e : ParseError),
      find_header_row rows = Except.error e →
      e = ParseError.no_header_found ∧
      ∀ (j : ℕ) (row' : List Cell),
        (rows.take 15)[j]? = some row' → rowScore row' < 2) := by
  have main := fun (rows : List (List Cell)) =>
    headerFold_spec ((rows.take 15).enum) (0, Option.none)
      (pairwise_fst_lt_enum _) (by intro i r h; cases h) (fun _ => rfl)
      (by intro i r h; cases h)
  constructor
  · intro rows i r h
    obtain ⟨A, B, C, D⟩ := main rows
    simp only [find_header_row] at h
    by_cases hlt : (((rows.take 15).enum).foldl headerStep (0, Option.none)).1 < 2
    · rw [if_pos hlt] at h; cases h
    · rw [if_neg hlt] at h
      rcases hb : (((rows.take 15).enum).foldl headerStep (0, Option.none)).2 with _ | p
      · simp only [hb] at h; cases h
      · simp only [hb] at h
        rw [Except.ok.injEq] at h
        subst h
        obtain ⟨D1, D2, D3, D4⟩ := D i r hb
        refine ⟨?_, ?_, ?_, ?_⟩
        · rcases D3 with ⟨hm, _⟩ | ⟨habsurd, _⟩
          · exact List.mk_mem_enum_iff_getElem?.mp hm
          · cases habsurd
        · rw [D1]; omega
        · intro j row' hj
          have := B (j, row') (List.mk_mem_enum_iff_getElem?.mpr hj)
          rw [D1]; exact this
        · intro j row' hji hj
          have := D4 (j, row') (List.mk_mem_enum_iff_getElem?.mpr hj) hji
          rw [D1]; exact this
  · intro rows e h
    obtain ⟨A, B, C, D⟩ := main rows
    simp only [find_header_row] at h
    by_cases hlt : (((rows.take 15).enum).foldl headerStep (0, Option.none)).1 < 2
    · rw [if_pos hlt] at h
      rw [Except.error.injEq] at h
      refine ⟨h.symm, ?_⟩
      intro j row' hj
      have := B (j, row') (List.mk_mem_enum_iff_getElem?.mpr hj)
      simp only at this
      omega
    · rw [if_neg hlt] at h
      rcases hb : (((rows.take 15).enum).foldl headerStep (0, Option.none)).2 with _ | p
      · have hC := C hb
        rw [hC] at hlt
        exact absurd (by norm_num) hlt
      · simp only [hb] at h; cases h

/-- Counterexample for C2 as stated: the first scanned row already scores
2, yet the locator returns the later, higher-scoring row at index 1 — it
does not return the earliest row scoring ≥ 2. -/
theorem find_header_row_earliest_cex :
    rowsC2[0]? = some [some ("areal"), some ("leje")] ∧
    2 ≤ rowScore [some ("areal"), some ("leje")] ∧
    find_header_row rowsC2 =
      Except.ok (1, [some ("areal"), some ("leje"), some ("etage")]) := by
  refine ⟨rfl, ?_, by with_unfolding_all rfl⟩
  have h : rowScore [some ("areal"), some ("leje")] = 2 := by with_unfolding_all rfl
  omega

/-- Witness for C2: the locator's pick on `rowsC2` indeed scores at least 2. -/
theorem find_header_row_best_score_spec_witness :
    2 ≤ rowScore [some ("areal"), some ("leje"), some ("etage")] :=
  (find_header_row_best_score_spec.1 rowsC2 1
    [some ("areal"), some ("leje"), some ("etage")] (by with_unfolding_all rfl)).2.1

/-! ### C7: row numbering within source segments -/

theorem extractSheetRows_block (source : String) (rt : Option String) (hidx : ℕ)
    (l : List (List Cell)) (off : ℕ) :
    List.Chain' (fun a b => a < b)
      ((extractSheetRows source rt hidx l off).map Row.row_num) ∧
    (∀ n ∈ (extractSheetRows source rt hidx l off).map Row.row_num,
      hidx + off + 2 ≤ n) ∧
    (∀ r ∈ extractSheetRows source rt hidx l off, r.source = source) := by
  induction l generalizing off with
  | nil => simp [extractSheetRows]
  | cons row rest ih =>
    by_cases he : is_end_row row
    · simp [extractSheetRows, he]
    · have he' : is_end_row row = false := by simpa using he
      obtain ⟨ihc, ihb, ihs⟩ := ih (off + 1)
      by_cases hn : ((stringifyRow row).filter (fun s => pyStrip s ≠ "")).length < 2
      · simp only [extractSheetRows, he', Bool.false_eq_true, if_false, if_pos hn]
        refine ⟨ihc, ?_, ihs⟩
        intro n hn2
        have := ihb n hn2
        omega
      · simp only [extractSheetRows, he', Bool.false_eq_true, if_false, if_neg hn]
        refine ⟨?_, ?_, ?_⟩
        · rw [List.map_cons]
          refine List.chain'_cons'.mpr ⟨?_, ihc⟩
          intro b hb
          have := ihb b (List.mem_of_mem_head? hb)
          simp only
          omega
        · intro n hn2
          rw [List.map_cons] at hn2
          rcases List.mem_cons.mp hn2 with rfl | hn3
          · simp
          · have := ihb n hn3
            omega
        · intro r hr
          rcases List.mem_cons.mp hr with rfl | hr2
          · rfl
          · exact ihs r hr2

theorem pdfExtractRows_block (page : ℕ) (seen : List (List String))
    (l : List (List Cell)) (off : ℕ) :
    List.Chain' (fun a b => a < b)
      ((pdfExtractRows page seen l off).map Row.row_num) ∧
    (∀ n ∈ (pdfExtractRows page seen l off).map Row.row_num, off + 1 ≤ n) ∧
    (∀ r ∈ pdfExtractRows page seen l off, r.source = ("page_") ++ toString page) := by
  induction l generalizing off with
  | nil => simp [pdfExtractRows]
  | cons row rest ih =>
    obtain ⟨ihc, ihb, ihs⟩ := ih (off + 1)
    have hskip : ∀ n ∈ (pdfExtractRows page seen rest (off + 1)).map Row.row_num,
        off + 1 ≤ n := by
      intro n hn2
      have := ihb n hn2
      omega
    by_cases he : is_end_row row
    · simp only [pdfExtractRows, if_pos he]
      exact ⟨ihc, hskip, ihs⟩
    · have he' : is_end_row row = false := by simpa using he
      by_cases hn : ((stringifyRow row).filter (fun s => pyStrip s ≠ "")).length < 2
      · simp only [pdfExtractRows, he', Bool.false_eq_true, if_false, if_pos hn]
        exact ⟨ihc, hskip, ihs⟩
      · by_cases hsig : rowSig (stringifyRow row) ∈ seen
        · simp only [pdfExtractRows, he', Bool.false_eq_true, if_false, if_neg hn,
            if_pos hsig]
          exact ⟨ihc, hskip, ihs⟩
        · simp only [pdfExtractRows, he', Bool.false_eq_true, if_false, if_neg hn,
            if_neg hsig]
          refine ⟨?_, ?_, ?_⟩
          · rw [List.map_cons]
            refine List.chain'_cons'.mpr ⟨?_, ihc⟩
            intro b hb
            have := ihb b (List.mem_of_mem_head? hb)
            simp only
            omega
          · intro n hn2
            rw [List.map_cons] at hn2
            rcases List.mem_cons.mp hn2 with rfl | hn3
            · simp
            · have := ihb n hn3
              omega
          · intro r hr
            rcases List.mem_cons.mp hr with rfl | hr2
            · rfl
            · exact ihs r hr2

theorem excelSheetStep_rows (acc : ExcelAcc) (sheet : String × List (List Cell)) :
    (excelSheetStep acc sheet).all_rows = acc.all_rows ∨
    ∃ hidx, (excelSheetStep acc sheet).all_rows =
      acc.all_rows ++ extractSheetRows sheet.1 (get_rent_type_from_sheet sheet.1) hidx
        ((sheet.2).drop (hidx + 1)) 0 := by
  by_cases hlen : sheet.2.length < 3
  · left
    simp [excelSheetStep, hlen]
  · rcases hh : acc.headerInfo with _ | info
    · rcases hf : find_header_row sheet.2 with e | p
      · left
        simp [excelSheetStep, hlen, hh, hf]
      · right
        exact ⟨p.1, by simp [excelSheetStep, hlen, hh, hf]⟩
    · rcases hf : find_header_row sheet.2 with e | p
      · left
        simp [excelSheetStep, hlen, hh, hf]
      · right
        exact ⟨p.1, by simp [excelSheetStep, hlen, hh, hf]⟩

theorem excelFold_mono (sheets : List (String × List (List Cell))) (acc : ExcelAcc)
    (hnodup : (sheets.map (fun s => s.1)).Nodup)
    (hfresh : ∀ s ∈ sheets, ∀ r ∈ acc.all_rows, r.source ≠ s.1)
    (hmono : sourceMonotone acc.all_rows) :
    sourceMonotone ((sheets.foldl excelSheetStep acc).all_rows) := by
  induction sheets generalizing acc with
  | nil => exact hmono
  | cons s rest ih =>
    simp only [List.map_cons, List.nodup_cons] at hnodup
    obtain ⟨hs1, hnd⟩ := hnodup
    simp only [List.foldl_cons]
    rcases excelSheetStep_rows acc s with heq | ⟨hidx, heq⟩
    · refine ih (excelSheetStep acc s) hnd ?_ ?_
      · intro t ht r hr
        rw [heq] at hr
        exact hfresh t (List.mem_cons_of_mem _ ht) r hr
      · intro label
        rw [heq]
        exact hmono label
    · obtain ⟨bc, bb, bs⟩ := extractSheetRows_block s.1 (get_rent_type_from_sheet s.1)
        hidx ((s.2).drop (hidx + 1)) 0
      refine ih (excelSheetStep acc s) hnd ?_ ?_
      · intro t ht r hr
        rw [heq] at hr
        rcases List.mem_append.mp hr with hold | hnew
        · exact hfresh t (List.mem_cons_of_mem _ ht) r hold
        · rw [bs r hnew]
          intro hcontra
          exact hs1 (hcontra ▸ List.mem_map_of_mem (fun q => q.1) ht)
      · intro label
        rw [heq, List.filter_append, List.map_append]
        by_cases hl : label = s.1
        · have hfilter_old :
              acc.all_rows.filter (fun r => r.source = label) = [] := by
            rw [List.filter_eq_nil_iff]
            intro r hr
            simpa [hl] using hfresh s (List.mem_cons_self _ _) r hr
          have hfilter_block :
              (extractSheetRows s.1 (get_rent_type_from_sheet s.1) hidx
                  ((s.2).drop (hidx + 1)) 0).filter (fun r => r.source = label) =
                extractSheetRows s.1 (get_rent_type_from_sheet s.1) hidx
                  ((s.2).drop (hidx + 1)) 0 := by
            rw [List.filter_eq_self]
            intro r hr
            simp [bs r hr, hl]
          rw [hfilter_old, hfilter_block]
          simpa using bc
        · have hfilter_block :
              (extractSheetRows s.1 (get_rent_type_from_sheet s.1) hidx
                  ((s.2).drop (hidx + 1)) 0).filter (fun r => r.source = label) = [] := by
            rw [List.filter_eq_nil_iff]
            intro r hr
            simp [bs r hr]
            intro hc
            exact absurd hc.symm hl
          rw [hfilter_block]
          simpa using hmono label

/-- C7 (amended): in the spreadsheet pipeline, `row_num` is strictly
increasing among the output rows sharing one sheet label (the sheet names
being distinct, as a workbook guarantees); in the PDF pipeline, `row_num`
is strictly increasing within the rows extracted from a single table — but
not per page label, since every table restarts numbering at offset + 1. -/
theorem row_num_segment_monotonic :
    (∀ (sheets : List (String × List (List Cell))) (res : ExcelResult),
      (sheets.map (fun s => s.1)).Nodup → parse_excel sheets = Except.ok res →
      sourceMonotone res.rows) ∧
    (∀ (page : ℕ) (seen : List (List String)) (l : List (List Cell)) (off : ℕ),
      List.Chain' (fun a b => a < b)
        ((pdfExtractRows page seen l off).map Row.row_num)) := by
  constructor
  · intro sheets res hnodup h
    simp only [parse_excel] at h
    rcases hinfo : (sheets.foldl excelSheetStep
        (ExcelAcc.mk [] Option.none [] [])).headerInfo with _ | info
    · simp only [hinfo] at h; cases h
    · simp only [hinfo] at h
      by_cases hrows : (sheets.foldl excelSheetStep
          (ExcelAcc.mk [] Option.none [] [])).all_rows.isEmpty
      · simp only [if_pos hrows] at h; cases h
      · simp only [if_neg hrows] at h
        rw [Except.ok.injEq] at h
        subst h
        have hm := excelFold_mono sheets (ExcelAcc.mk [] Option.none [] []) hnodup
          (by intro s hs r hr; cases hr)
          (by intro label; simp [sourceMonotone])
        simpa using hm
  · intro page seen l off
    exact (pdfExtractRows_block page seen l off).1

/-- Counterexample for C7 as stated: one PDF page delivering two tables
produces four rows all labeled `page_1` with row numbers 1, 2, 1, 2 — not
strictly increasing within that source label. -/
theorem row_num_per_source_cex :
    parse_pdf pagesC7 [] = Except.ok resC7 ∧ ¬ sourceMonotone resC7.rows := by
  constructor
  · with_unfolding_all rfl
  · intro h
    have h1 := h ("page_1")
    have hl : ((resC7.rows.filter (fun r => r.source = "page_1")).map Row.row_num) =
        [1, 2, 1, 2] := by with_unfolding_all rfl
    rw [hl] at h1
    exact (by simp [List.chain'_cons] : ¬ List.Chain' (fun a b => a < b) [1, 2, 1, 2]) h1

/-- Witness for C7: the spreadsheet half applied to the scenario workbook. -/
theorem row_num_segment_monotonic_witness :
    sourceMonotone resC1ex.rows :=
  row_num_segment_monotonic.1 wbC1 resC1ex (by decide) (by with_unfolding_all rfl)

/-- Witness for C5: in the parse of `pagesC5` (whose second table repeats
the header both as its leading row and embedded as data) the row `B1` does
not carry the header signature. -/
theorem parse_pdf_no_header_dup_rows_witness :
    rowSig (Row.mk [("B1"), ("70"), ("3000")] (("page_") ++ toString 2) 1 Option.none).raw ≠
      sigOfColumns resC5.columns :=
  parse_pdf_no_header_dup_rows pagesC5 [] resC5 (by with_unfolding_all rfl)
    (Row.mk [("B1"), ("70"), ("3000")] (("page_") ++ toString 2) 1 Option.none)
    (by with_unfolding_all decide)

end RentRoll
